import Mathlib

/-!
Verification of the catalystcommunity/pulumi-modules-go repository.

Shallow embedding of the pure/data-transforming core of the repository:
the ARN normalizer (`removeArnPath`, `arnToUsername`), the aws-auth
configmap builder (`SyncAuthConfigMap` and its discovery helpers
`discoverNodeIAMRole`, `discoverSSORole`), the manifest synchronizers
(`SyncKubernetesManifest`, `applyKubernetesManifest`), and the ArgoCD
application template materialization in
`deployPlatformApplicationManifest`.

Cloud/provider calls (`eks.GetNodeGroups`, `eks.LookupNodeGroup`,
`iam.GetRoles`) are modelled as an explicit environment of functions, so
the Go functions become pure functions of the environment and their
inputs.  A Go runtime panic (out-of-range slice index) is modelled as a
distinct `GoResult.crash` outcome, separate from a returned `error`.
-/

/-- Outcome of a Go function that returns `(T, error)` but may also panic
at runtime: `ok` models a nil-error return, `err` models a non-nil error
return, and `crash` models a runtime panic (e.g. slice index out of
range). -/
inductive GoResult (α : Type) where
  | ok : α → GoResult α
  | err : String → GoResult α
  | crash : String → GoResult α
deriving DecidableEq, Repr

/-- Embedding of Go `strings.Split(s, sep)` for a one-character separator,
on the character-list view of strings.  Like Go, splitting the empty
string yields `[[]]`, and the result is never the empty list. -/
def splitOnChar (sep : Char) : List Char → List (List Char)
  | [] => [[]]
  | c :: cs =>
    if c = sep then [] :: splitOnChar sep cs
    else
      match splitOnChar sep cs with
      | [] => [[c]]
      | g :: gs => (c :: g) :: gs

/-- Embedding of Go `strings.Join(elems, sep)` for a one-character
separator. -/
def goJoin (sep : Char) : List (List Char) → List Char
  | [] => []
  | [l] => l
  | l :: ls => l ++ sep :: goJoin sep ls

/-- Function `removeArnPath` from the eks package: splits the ARN on `/` and joins
the first and last fragments with `/` (the auth configmap does not
support ARNs with paths). -/
def removeArnPath (arn : String) : String :=
  let a := splitOnChar '/' arn.data
  String.mk (goJoin '/' [a.headD [], a.getLastD []])

/-- Function `arnToUsername` from the eks package: the last `/`-separated fragment
of the ARN. -/
def arnToUsername (i : String) : String :=
  let a := splitOnChar '/' i.data
  String.mk (a.getLastD [])

theorem splitOnChar_ne_nil (sep : Char) (l : List Char) :
    splitOnChar sep l ≠ [] := by
  induction l with
  | nil => simp [splitOnChar]
  | cons c cs ih =>
    simp only [splitOnChar]
    split
    · simp
    · cases h : splitOnChar sep cs with
      | nil => simp
      | cons g gs => simp

theorem splitOnChar_of_not_mem (sep : Char) (l : List Char)
    (h : sep ∉ l) : splitOnChar sep l = [l] := by
  induction l with
  | nil => rfl
  | cons c cs ih =>
    simp only [List.mem_cons, not_or] at h
    simp only [splitOnChar]
    rw [if_neg (fun hc => h.1 hc.symm)]
    rw [ih h.2]

theorem splitOnChar_append (sep : Char) (l₁ l₂ : List Char)
    (h : sep ∉ l₁) :
    splitOnChar sep (l₁ ++ sep :: l₂) = l₁ :: splitOnChar sep l₂ := by
  induction l₁ with
  | nil => simp [splitOnChar]
  | cons c cs ih =>
    simp only [List.mem_cons, not_or] at h
    simp only [List.cons_append, splitOnChar]
    rw [if_neg (fun hc => h.1 hc.symm)]
    simp only [List.append_eq]
    rw [ih h.2]

theorem not_mem_of_mem_splitOnChar (sep : Char) (l : List Char)
    (g : List Char) (hg : g ∈ splitOnChar sep l) : sep ∉ g := by
  induction l generalizing g with
  | nil =>
    simp [splitOnChar] at hg
    simp [hg]
  | cons c cs ih =>
    simp only [splitOnChar] at hg
    by_cases hc : c = sep
    · rw [if_pos hc] at hg
      rcases List.mem_cons.mp hg with h | h
      · simp [h]
      · exact ih g h
    · rw [if_neg hc] at hg
      cases hsplit : splitOnChar sep cs with
      | nil => exact absurd hsplit (splitOnChar_ne_nil sep cs)
      | cons g₀ gs =>
        rw [hsplit] at hg
        rcases List.mem_cons.mp hg with h | h
        · subst h
          intro hmem
          rcases List.mem_cons.mp hmem with h | h
          · exact hc h.symm
          · have := ih g₀ (by rw [hsplit]; exact List.mem_cons_self g₀ gs)
            exact this h
        · exact ih g (by rw [hsplit]; exact List.mem_cons.mpr (Or.inr h))

theorem list_getLastD_mem {α : Type} (l : List α) (d : α) (h : l ≠ []) :
    l.getLastD d ∈ l := by
  cases l with
  | nil => exact absurd rfl h
  | cons a as =>
    rw [List.getLastD_eq_getLast?, List.getLast?_eq_getLast (a :: as) (by simp)]
    simp

theorem list_headD_mem {α : Type} (l : List α) (d : α) (h : l ≠ []) :
    l.headD d ∈ l := by
  cases l with
  | nil => exact absurd rfl h
  | cons a as => simp

theorem string_data_append (s t : String) :
    (s ++ t).data = s.data ++ t.data := by
  cases s; cases t; rfl

theorem string_mk_data (s : String) : String.mk s.data = s := by
  cases s; rfl

/-! ## aws-auth configmap synchronization (eks package) -/

/-- Input `SSORolePermissionSetInput`: one SSO permission-set role to
autodiscover for the configmap. -/
structure SSORolePermissionSetInput where
  name : String
  permissionGroups : List String
  username : String
deriving DecidableEq, Repr

/-- Input `IAMIdentityInput`: one explicitly configured IAM role or user. -/
structure IAMIdentityInput where
  arn : String
  permissionGroups : List String
  username : String
deriving DecidableEq, Repr

/-- Input `AuthConfigMapInput`: configuration of `SyncAuthConfigMap`. -/
structure AuthConfigMapInput where
  initialImport : Bool
  nodeGroupIamRole : String
  nodeGroupIamRoleAutoDiscover : Bool
  eksClusterName : String
  autoDiscoverSSORoles : List SSORolePermissionSetInput
  iamRoles : List IAMIdentityInput
  iamUsers : List IAMIdentityInput
deriving DecidableEq, Repr

/-- Element `MapRolesElement`: one entry of the `mapRoles` yaml sequence. -/
structure MapRolesElement where
  groups : List String
  roleArn : String
  username : String
deriving DecidableEq, Repr

/-- Element `MapUsersElement`: one entry of the `mapUsers` yaml sequence. -/
structure MapUsersElement where
  groups : List String
  userArn : String
  username : String
deriving DecidableEq, Repr

/-- Environment of provider lookups performed by the eks package:
`eks.GetNodeGroups` (cluster name to node-group names),
`eks.LookupNodeGroup` (cluster name and node-group name to the
node-group's `NodeRoleArn`), and `iam.GetRoles` (name regex and path
prefix to matching role ARNs).  Each is a point-in-time lookup that can
fail with a provider error. -/
structure PulumiEnv where
  getNodeGroups : String → Except String (List String)
  lookupNodeGroup : String → String → Except String String
  getRoles : String → String → Except String (List String)

/-- Function `discoverNodeIAMRole` from the eks package: lists the cluster's node
groups and looks up the `NodeRoleArn` of the first one.  The Go code
indexes `nodegroups.Names[0]` unconditionally, which panics at runtime
when the name list is empty; that panic is the `crash` outcome. -/
def discoverNodeIAMRole (env : PulumiEnv) (clusterName : String) :
    GoResult String :=
  match env.getNodeGroups clusterName with
  | .error e => .err e
  | .ok names =>
    match names with
    | [] => .crash "runtime error: index out of range [0] with length 0"
    | n :: _ =>
      match env.lookupNodeGroup clusterName n with
      | .error e => .err e
      | .ok nodeRoleArn => .ok nodeRoleArn

/-- The name regex built by `discoverSSORole`:
`fmt.Sprintf("AWSReservedSSO_%s_.*", permissionSetName)`. -/
def ssoRoleRegex (permissionSetName : String) : String :=
  "AWSReservedSSO_" ++ permissionSetName ++ "_.*"

/-- Function `discoverSSORole` from the eks package: searches IAM roles whose name
matches `AWSReservedSSO_<name>_.*` under the fixed SSO path prefix
(source variable `ssoRolePathPrefix`) and requires exactly one match. -/
def discoverSSORole (env : PulumiEnv) (permissionSetName : String) :
    Except String String :=
  match env.getRoles (ssoRoleRegex permissionSetName)
      "/aws-reserved/sso.amazonaws.com/" with
  | .error e => .error e
  | .ok arns =>
    if arns.length ≠ 1 then
      .error ("admin role auto discovery failed, discovered "
        ++ toString arns.length)
    else
      -- Arns[0]; the length guard makes the index safe
      .ok (arns.headD "")

/-- The node-role resolution at the top of `SyncAuthConfigMap`: either
autodiscovery via `discoverNodeIAMRole` (requiring a cluster name) or the
explicitly configured role (requiring it to be non-empty). -/
def resolveNodeRoleArn (env : PulumiEnv) (config : AuthConfigMapInput) :
    GoResult String :=
  if config.nodeGroupIamRoleAutoDiscover then
    if config.eksClusterName ≠ "" then
      discoverNodeIAMRole env config.eksClusterName
    else
      .err "Node Group IAM Role auto discover enabled, but EKS cluster name not supplied"
  else
    if config.nodeGroupIamRole ≠ "" then
      .ok config.nodeGroupIamRole
    else
      .err "Node Group IAM Role not supplied, auto discover not enabled"

/-- The mandatory worker-node entry appended to `mapRoles` first. -/
def workerNodeBinding (nodeRoleArn : String) : MapRolesElement :=
  { groups := ["system:bootstrappers", "system:nodes"]
  , roleArn := nodeRoleArn
  , username := "system:node:\x7b\x7bEC2PrivateDNSName\x7d\x7d" }

/-- The SSO autodiscovery loop of `SyncAuthConfigMap`: for each
permission set, default the username to its name, discover the role ARN
(propagating the first failure), strip its path, and emit the binding in
input order. -/
def ssoMapRoles (env : PulumiEnv) :
    List SSORolePermissionSetInput → Except String (List MapRolesElement)
  | [] => .ok []
  | c :: rest =>
    let username := if c.username ≠ "" then c.username else c.name
    match discoverSSORole env c.name with
    | .error e => .error e
    | .ok roleArn =>
      match ssoMapRoles env rest with
      | .error e => .error e
      | .ok tail =>
        .ok ({ groups := c.permissionGroups
             , roleArn := removeArnPath roleArn
             , username := username } :: tail)

/-- The explicit IAM-roles loop of `SyncAuthConfigMap`: username defaults
to the role name derived from the ARN, the ARN is path-stripped. -/
def iamRolesToBindings (l : List IAMIdentityInput) : List MapRolesElement :=
  l.map fun rc =>
    { groups := rc.permissionGroups
    , roleArn := removeArnPath rc.arn
    , username := if rc.username ≠ "" then rc.username else arnToUsername rc.arn }

/-- The explicit IAM-users loop of `SyncAuthConfigMap`: same defaulting,
into the `mapUsers` list. -/
def iamUsersToBindings (l : List IAMIdentityInput) : List MapUsersElement :=
  l.map fun uc =>
    { groups := uc.permissionGroups
    , userArn := removeArnPath uc.arn
    , username := if uc.username ≠ "" then uc.username else arnToUsername uc.arn }

/-- The user-bindings list `mapUsers` built by `SyncAuthConfigMap`:
empty under initial import (the loop is skipped), otherwise one entry per
configured IAM user. -/
def builtMapUsers (config : AuthConfigMapInput) : List MapUsersElement :=
  if config.initialImport then [] else iamUsersToBindings config.iamUsers

/-- The `data` payload of the produced aws-auth configmap.  Each key
holds the structured binding list that the Go code yaml-marshals into the
corresponding string value (marshalling of these string-shaped structs
cannot fail); `none` models the key being entirely absent from the
payload. -/
structure AuthConfigMapData where
  mapRoles : Option (List MapRolesElement)
  mapUsers : Option (List MapUsersElement)
deriving DecidableEq, Repr

/-- Function `SyncAuthConfigMap` from the eks package: resolve the worker-node
role, emit its binding first, add SSO/IAM role bindings and IAM user
bindings unless `initialImport` is set, and register the configmap whose
`data` always carries `mapRoles` and carries `mapUsers` only when that
list is non-empty. -/
def SyncAuthConfigMap (env : PulumiEnv) (config : AuthConfigMapInput) :
    GoResult AuthConfigMapData :=
  match resolveNodeRoleArn env config with
  | .crash m => .crash m
  | .err e => .err e
  | .ok nodeRoleArn =>
    let extra : Except String (List MapRolesElement) :=
      if config.initialImport then .ok []
      else
        match ssoMapRoles env config.autoDiscoverSSORoles with
        | .error e => .error e
        | .ok sso => .ok (sso ++ iamRolesToBindings config.iamRoles)
    match extra with
    | .error e => .err e
    | .ok extraRoles =>
      let mapRoles := workerNodeBinding nodeRoleArn :: extraRoles
      let mapUsers := builtMapUsers config
      -- omit mapUsers if empty, otherwise import fails
      .ok { mapRoles := some mapRoles
          , mapUsers := if mapUsers.length ≠ 0 then some mapUsers else none }

/-! ## Manifest synchronizers (kubernetes package and the kubectl shim) -/

/-- Filesystem state: which paths currently hold a file.  The scratch
path is the only path these functions touch. -/
def FS : Type := String → Bool

/-- The scratch path `fmt.Sprintf("/tmp/%s.yaml", pulumiResourceName)`. -/
def tempFileName (pulumiResourceName : String) : String :=
  "/tmp/" ++ pulumiResourceName ++ ".yaml"

/-- Create a file at `p`. -/
def fsWrite (fs : FS) (p : String) : FS :=
  fun q => if q = p then true else fs q

/-- Remove the file at `p` (`os.Remove` / `rm`). -/
def fsRemove (fs : FS) (p : String) : FS :=
  fun q => if q = p then false else fs q

/-- Function `SyncKubernetesManifest` from pkg/kubernetes/manifest.go, as a state
transformer on the filesystem.  `writeErr` is the outcome of
`os.WriteFile` (`some e` = failure, in which case the function returns
early and the filesystem is untouched), and `applyResult` the outcome of
`yaml.NewConfigFile`.  After a successful write the file deletion is
deferred, so it runs on every exit path, whether or not the apply
succeeded. -/
def SyncKubernetesManifest (writeErr : Option String)
    (applyResult : Except String Unit) (fs : FS)
    (pulumiResourceName : String) : FS × Except String Unit :=
  match writeErr with
  | some e => (fs, .error e)
  | none =>
    let f := tempFileName pulumiResourceName
    let fs₁ := fsWrite fs f
    -- deferred os.Remove runs after yaml.NewConfigFile on every path
    (fsRemove fs₁ f, applyResult)

/-- Outcome of the `local.NewCommand` resource in
`applyKubernetesManifest`: either the command resource fails to register
or execute (its create program never runs), or the create program runs,
with `kubectl apply` succeeding or failing. -/
inductive CommandOutcome where
  | registerFailed : String → CommandOutcome
  | ran : Option String → CommandOutcome
deriving DecidableEq, Repr

/-- Function `applyKubernetesManifest` from the eks package (the kubectl shim):
writes the manifest to the scratch path, then registers a command whose
create program is `kubectl apply -f <f>; rm <f>`.  Because the two shell
commands are joined by `;`, the `rm` runs whenever the program runs at
all, regardless of kubectl's exit status — but if the command resource
never executes, nothing removes the scratch file. -/
def applyKubernetesManifest (writeErr : Option String)
    (cmd : CommandOutcome) (fs : FS)
    (pulumiResourceName : String) : FS × Except String Unit :=
  match writeErr with
  | some e => (fs, .error e)
  | none =>
    let f := tempFileName pulumiResourceName
    let fs₁ := fsWrite fs f
    match cmd with
    | .registerFailed e => (fs₁, .error e)
    | .ran kubectlErr =>
      let fs₂ := fsRemove fs₁ f
      match kubectlErr with
      | some e => (fs₂, .error e)
      | none => (fs₂, .ok ())

/-! ## ArgoCD Application template materialization (kubernetes package) -/

structure HelmSourceParameter where
  name : String
  value : String
  forceString : Bool
deriving DecidableEq, Repr

structure HelmSourceFileParameter where
  name : String
  path : String
deriving DecidableEq, Repr

structure HelmSource where
  valueFiles : List String
  parameters : List HelmSourceParameter
  releaseName : String
  values : String
  fileParameters : List HelmSourceFileParameter
  version : String
  passCredentials : Bool
  ignoreMissingValueFiles : Bool
  skipCrds : Bool
deriving DecidableEq, Repr

structure KustomizeSource where
  namePrefix : String
  nameSuffix : String
  images : List String
  commonLabels : List (String × String)
  version : String
  commonAnnotations : List (String × String)
  forceCommonLabels : Bool
  forceCommonAnnotations : Bool
deriving DecidableEq, Repr

structure JsonnetVar where
  name : String
  value : String
  code : Bool
deriving DecidableEq, Repr

structure DirectorySourceJsonnet where
  extVars : List JsonnetVar
  tlas : List JsonnetVar
  libs : List String
deriving DecidableEq, Repr

structure DirectorySource where
  recurse : Bool
  jsonnet : DirectorySourceJsonnet
  exclude : String
  includeGlob : String  -- source field name: Include (a keyword here)
deriving DecidableEq, Repr

structure PluginSourceEnv where
  name : String
  value : String
deriving DecidableEq, Repr

structure PluginSource where
  name : String
  env : List PluginSourceEnv
deriving DecidableEq, Repr

structure ArgocdApplicationSpecSource where
  repoUrl : String
  path : String
  targetRevision : String
  helm : HelmSource
  kustomize : KustomizeSource
  directory : DirectorySource
  plugin : PluginSource
  chart : String
deriving DecidableEq, Repr

structure ArgocdApplicationSpecDestination where
  server : String
  nspace : String  -- source field name: Namespace (a keyword here)
  name : String
deriving DecidableEq, Repr

structure SyncPolicyAutomated where
  prune : Bool
  selfHeal : Bool
  allowEmpty : Bool
deriving DecidableEq, Repr

structure RetryBackoff where
  duration : String
  factor : Int
  maxDuration : String
deriving DecidableEq, Repr

structure SyncPolicyRetry where
  limit : Int
  backoff : RetryBackoff
deriving DecidableEq, Repr

structure ArgocdApplicationSyncPolicy where
  automated : SyncPolicyAutomated
  retry : SyncPolicyRetry
  syncOptions : List String
deriving DecidableEq, Repr

structure ArgocdApplicationIgnoreDifferences where
  group : String
  kind : String
  name : String
  nspace : String  -- source field name: Namespace (a keyword here)
  jsonPointers : List String
  jqPathExpressions : List String
  managedFieldsManagers : List String
deriving DecidableEq, Repr

structure ArgocdApplicationSpec where
  source : ArgocdApplicationSpecSource
  destination : ArgocdApplicationSpecDestination
  project : String
  syncPolicy : ArgocdApplicationSyncPolicy
  ignoreDifferences : List ArgocdApplicationIgnoreDifferences
deriving DecidableEq, Repr

/-- Structure `ArgocdApplication`: the typed mirror of an ArgoCD Application
manifest.  The Go `Metadata` field is `map[string]interface{}`; it is
modelled as a string-keyed association list, since the materialization
only passes it through. -/
structure ArgocdApplication where
  apiVersion : String
  kind : String
  metadata : List (String × String)
  spec : ArgocdApplicationSpec
deriving DecidableEq, Repr

/-- Structure `PlatformApplicationConfig` from the kubernetes package. -/
structure PlatformApplicationConfig where
  enabled : Bool
  targetRevision : String
  syncPolicy : ArgocdApplicationSyncPolicy
  values : String
deriving DecidableEq, Repr

/-- The template-materialization step of
`deployPlatformApplicationManifest`: starting from the application
deserialized from the embedded template, set
`application.Spec.SyncPolicy`, `application.Spec.Source.TargetRevision`
and `application.Spec.Source.Helm.Values` from the stack configuration,
unconditionally. -/
def materializePlatformApplication (application : ArgocdApplication)
    (platformApplicationConfig : PlatformApplicationConfig) :
    ArgocdApplication :=
  { application with
    spec := { application.spec with
      syncPolicy := platformApplicationConfig.syncPolicy
      source := { application.spec.source with
        targetRevision := platformApplicationConfig.targetRevision
        helm := { application.spec.source.helm with
          values := platformApplicationConfig.values } } } }

/-! ## Lemmas about the ARN normalizer -/

theorem goJoin_pair (sep : Char) (x y : List Char) :
    goJoin sep [x, y] = x ++ sep :: y := rfl

theorem getLastD_cons_of_ne_nil {α : Type} (a : α) (l : List α) (d : α)
    (h : l ≠ []) : (a :: l).getLastD d = l.getLastD d := by
  cases l with
  | nil => exact absurd rfl h
  | cons b bs => simp [List.getLastD_cons]

theorem slash_string_data : ("/" : String).data = ['/'] := rfl

theorem getLastD_single {α : Type} (a d : α) : [a].getLastD d = a := rfl

theorem append_slash_data (p rest : String) :
    (p ++ "/" ++ rest).data = p.data ++ '/' :: rest.data := by
  rw [string_data_append, string_data_append, slash_string_data,
    List.append_assoc]
  rfl

theorem arnToUsername_data (s : String) :
    (arnToUsername s).data = (splitOnChar '/' s.data).getLastD [] := rfl

/-- Core computation of `removeArnPath` on a string whose first
`/`-separated segment is `p`: the result keeps `p` and the last segment
(the latter is exactly `arnToUsername` of the remainder). -/
theorem removeArnPath_append (p rest : String) (hp : '/' ∉ p.data) :
    removeArnPath (p ++ "/" ++ rest) = p ++ "/" ++ arnToUsername rest := by
  have hsplit : splitOnChar '/' (p ++ "/" ++ rest).data
      = p.data :: splitOnChar '/' rest.data := by
    rw [append_slash_data]
    exact splitOnChar_append '/' p.data rest.data hp
  have hne := splitOnChar_ne_nil '/' rest.data
  simp only [removeArnPath]
  rw [goJoin_pair, hsplit]
  rw [getLastD_cons_of_ne_nil _ _ _ hne]
  simp only [List.headD_cons]
  have hrhs : (p ++ "/" ++ arnToUsername rest).data
      = p.data ++ '/' :: (splitOnChar '/' rest.data).getLastD [] := by
    rw [append_slash_data, arnToUsername_data]
  rw [← hrhs, string_mk_data]

theorem removeArnPath_no_slash (s : String) (hs : '/' ∉ s.data) :
    removeArnPath s = s ++ "/" ++ s := by
  have h := splitOnChar_of_not_mem '/' s.data hs
  simp only [removeArnPath]
  rw [goJoin_pair, h]
  simp only [List.headD_cons, getLastD_single]
  rw [← append_slash_data, string_mk_data]

theorem arnToUsername_no_slash (s : String) (hs : '/' ∉ s.data) :
    arnToUsername s = s := by
  have h := splitOnChar_of_not_mem '/' s.data hs
  simp only [arnToUsername]
  rw [h]
  simp only [getLastD_single]

theorem removeArnPath_idempotent (x : String) :
    removeArnPath (removeArnPath x) = removeArnPath x := by
  have hne := splitOnChar_ne_nil '/' x.data
  have hh : (splitOnChar '/' x.data).headD [] ∈ splitOnChar '/' x.data :=
    list_headD_mem _ [] hne
  have ht : (splitOnChar '/' x.data).getLastD [] ∈ splitOnChar '/' x.data :=
    list_getLastD_mem _ [] hne
  have hh' : '/' ∉ (splitOnChar '/' x.data).headD [] :=
    not_mem_of_mem_splitOnChar '/' x.data _ hh
  have ht' : '/' ∉ (splitOnChar '/' x.data).getLastD [] :=
    not_mem_of_mem_splitOnChar '/' x.data _ ht
  conv_lhs => rw [removeArnPath]
  simp only [removeArnPath]
  rw [goJoin_pair, goJoin_pair]
  have hsplit : splitOnChar '/'
      (String.mk ((splitOnChar '/' x.data).headD []
        ++ '/' :: (splitOnChar '/' x.data).getLastD [])).data
      = (splitOnChar '/' x.data).headD []
        :: splitOnChar '/' ((splitOnChar '/' x.data).getLastD []) := by
    exact splitOnChar_append '/' _ _ hh'
  rw [hsplit, splitOnChar_of_not_mem '/' _ ht']
  simp only [List.headD_cons]
  rw [getLastD_cons_of_ne_nil _ _ _ (by simp), getLastD_single]

/-- C6: for every ARN of the form `prefix/.../name` (at least one `/`,
with `prefix` the first segment), `removeArnPath` keeps only the first
and last `/`-separated segments; on a path-free ARN `prefix/name` it is a
no-op; and it is idempotent on every input string. -/
theorem removeArnPath_first_last_idem :
    (∀ p rest : String, '/' ∉ p.data →
       removeArnPath (p ++ "/" ++ rest) = p ++ "/" ++ arnToUsername rest) ∧
    (∀ p n : String, '/' ∉ p.data → '/' ∉ n.data →
       removeArnPath (p ++ "/" ++ n) = p ++ "/" ++ n) ∧
    (∀ x : String, removeArnPath (removeArnPath x) = removeArnPath x) := by
  refine ⟨removeArnPath_append, ?_, removeArnPath_idempotent⟩
  intro p n hp hn
  rw [removeArnPath_append p n hp, arnToUsername_no_slash n hn]

theorem removeArnPath_first_last_idem_witness :
    removeArnPath ("arn:aws:iam::123:role" ++ "/" ++ "some/path/MyRole")
      = "arn:aws:iam::123:role" ++ "/" ++ arnToUsername "some/path/MyRole" ∧
    removeArnPath ("arn:aws:iam::123:role" ++ "/" ++ "MyRole")
      = "arn:aws:iam::123:role" ++ "/" ++ "MyRole" ∧
    removeArnPath (removeArnPath "a/b/c") = removeArnPath "a/b/c" :=
  ⟨removeArnPath_first_last_idem.1 "arn:aws:iam::123:role" "some/path/MyRole"
     (by decide),
   removeArnPath_first_last_idem.2.1 "arn:aws:iam::123:role" "MyRole"
     (by decide) (by decide),
   removeArnPath_first_last_idem.2.2 "a/b/c"⟩

/-- C9: on a string with no `/`, `removeArnPath` returns the string
joined with itself around a `/` (so it is not the identity there), while
`arnToUsername` returns the input unchanged. -/
theorem removeArnPath_no_slash_doubles (s : String) (hs : '/' ∉ s.data) :
    removeArnPath s = s ++ "/" ++ s ∧
    removeArnPath s ≠ s ∧
    arnToUsername s = s := by
  refine ⟨removeArnPath_no_slash s hs, ?_, arnToUsername_no_slash s hs⟩
  rw [removeArnPath_no_slash s hs]
  intro h
  have := congrArg (fun t : String => t.data.length) h
  simp only [append_slash_data, List.length_append, List.length_cons] at this
  omega

/-! ## Lemmas about SyncAuthConfigMap -/

theorem syncAuthConfigMap_resolution_err (env : PulumiEnv)
    (config : AuthConfigMapInput) (e : String)
    (h : resolveNodeRoleArn env config = .err e) :
    SyncAuthConfigMap env config = .err e := by
  unfold SyncAuthConfigMap
  rw [h]

theorem syncAuthConfigMap_resolution_crash (env : PulumiEnv)
    (config : AuthConfigMapInput) (m : String)
    (h : resolveNodeRoleArn env config = .crash m) :
    SyncAuthConfigMap env config = .crash m := by
  unfold SyncAuthConfigMap
  rw [h]

theorem syncAuthConfigMap_ok_resolution (env : PulumiEnv)
    (config : AuthConfigMapInput) (arn : String)
    (h₂ : resolveNodeRoleArn env config = .ok arn) :
    SyncAuthConfigMap env config =
      match (if config.initialImport then Except.ok []
             else match ssoMapRoles env config.autoDiscoverSSORoles with
                  | .error e => .error e
                  | .ok sso => .ok (sso ++ iamRolesToBindings config.iamRoles)) with
      | .error e => .err e
      | .ok extraRoles =>
        .ok { mapRoles := some (workerNodeBinding arn :: extraRoles)
            , mapUsers := if (builtMapUsers config).length ≠ 0
                then some (builtMapUsers config) else none } := by
  unfold SyncAuthConfigMap
  rw [h₂]

theorem syncAuthConfigMap_ok_initial (env : PulumiEnv)
    (config : AuthConfigMapInput) (arn : String)
    (hii : config.initialImport = true)
    (h₂ : resolveNodeRoleArn env config = .ok arn) :
    SyncAuthConfigMap env config =
      .ok { mapRoles := some [workerNodeBinding arn], mapUsers := none } := by
  rw [syncAuthConfigMap_ok_resolution env config arn h₂]
  simp [hii, builtMapUsers]

theorem syncAuthConfigMap_ok_normal (env : PulumiEnv)
    (config : AuthConfigMapInput) (arn : String) (sso : List MapRolesElement)
    (hii : config.initialImport = false)
    (h₂ : resolveNodeRoleArn env config = .ok arn)
    (hsso : ssoMapRoles env config.autoDiscoverSSORoles = .ok sso) :
    SyncAuthConfigMap env config =
      .ok { mapRoles := some (workerNodeBinding arn
              :: (sso ++ iamRolesToBindings config.iamRoles))
          , mapUsers := if (builtMapUsers config).length ≠ 0
              then some (builtMapUsers config) else none } := by
  rw [syncAuthConfigMap_ok_resolution env config arn h₂]
  simp [hii, hsso]

theorem syncAuthConfigMap_sso_error (env : PulumiEnv)
    (config : AuthConfigMapInput) (arn e : String)
    (hii : config.initialImport = false)
    (h₂ : resolveNodeRoleArn env config = .ok arn)
    (hsso : ssoMapRoles env config.autoDiscoverSSORoles = .error e) :
    SyncAuthConfigMap env config = .err e := by
  rw [syncAuthConfigMap_ok_resolution env config arn h₂]
  simp [hii, hsso]

/-- C1: under `InitialImport = true`, with a usable worker-node role
source, the produced data payload serializes exactly one role-binding
(the worker-node entry) under `mapRoles` and has no `mapUsers` key,
regardless of the configured SSO permission sets, IAM roles or IAM
users. -/
theorem syncAuthConfigMap_initialImport_only_worker (env : PulumiEnv)
    (config : AuthConfigMapInput) (arn : String)
    (hii : config.initialImport = true)
    (h₂ : resolveNodeRoleArn env config = .ok arn) :
    SyncAuthConfigMap env config =
      .ok { mapRoles := some [workerNodeBinding arn], mapUsers := none } :=
  syncAuthConfigMap_ok_initial env config arn hii h₂

/-- C2: whenever `SyncAuthConfigMap` produces a configmap, its data
payload always carries the `mapRoles` key, carries the `mapUsers` key
exactly when the built user-bindings list is non-empty, and never
carries `mapUsers` as an empty sequence. -/
theorem syncAuthConfigMap_mapUsers_key_iff (env : PulumiEnv)
    (config : AuthConfigMapInput) (d : AuthConfigMapData)
    (h : SyncAuthConfigMap env config = .ok d) :
    d.mapRoles.isSome = true ∧
    (builtMapUsers config ≠ [] → d.mapUsers = some (builtMapUsers config)) ∧
    (builtMapUsers config = [] → d.mapUsers = none) ∧
    d.mapUsers ≠ some [] := by
  cases hr : resolveNodeRoleArn env config with
  | err e => rw [syncAuthConfigMap_resolution_err env config e hr] at h; cases h
  | crash m => rw [syncAuthConfigMap_resolution_crash env config m hr] at h; cases h
  | ok arn =>
    have hd : d.mapRoles.isSome = true ∧
        d.mapUsers = (if (builtMapUsers config).length ≠ 0
          then some (builtMapUsers config) else none) := by
      by_cases hii : config.initialImport
      · rw [syncAuthConfigMap_ok_initial env config arn hii hr] at h
        cases h
        constructor
        · rfl
        · simp [builtMapUsers, hii]
      · cases hsso : ssoMapRoles env config.autoDiscoverSSORoles with
        | error e =>
          rw [syncAuthConfigMap_sso_error env config arn e
            (by simpa using hii) hr hsso] at h
          cases h
        | ok sso =>
          rw [syncAuthConfigMap_ok_normal env config arn sso
            (by simpa using hii) hr hsso] at h
          cases h
          exact ⟨rfl, rfl⟩
    obtain ⟨h₁, h₂⟩ := hd
    refine ⟨h₁, ?_, ?_, ?_⟩
    · intro hne
      rw [h₂, if_pos (by simpa using hne)]
    · intro hnil
      rw [h₂, if_neg (by simp [hnil])]
    · rw [h₂]
      by_cases hbu : (builtMapUsers config).length ≠ 0
      · rw [if_pos hbu]
        intro hcontra
        injection hcontra with hcontra
        rw [hcontra] at hbu
        exact hbu rfl
      · rw [if_neg hbu]
        intro hcontra
        cases hcontra

/-- C3: whenever `SyncAuthConfigMap` produces a configmap, the built
role-bindings list is non-empty and its first element is the worker-node
binding: the resolved node-group role ARN, the node-identity username
placeholder, and exactly the bootstrappers and nodes groups — in both
initial-import and normal mode. -/
theorem syncAuthConfigMap_worker_binding_first (env : PulumiEnv)
    (config : AuthConfigMapInput) (d : AuthConfigMapData)
    (h : SyncAuthConfigMap env config = .ok d) :
    ∃ arn rest, resolveNodeRoleArn env config = GoResult.ok arn ∧
      d.mapRoles = some
        ({ groups := ["system:bootstrappers", "system:nodes"]
         , roleArn := arn
         , username := "system:node:\x7b\x7bEC2PrivateDNSName\x7d\x7d" }
         :: rest) := by
  cases hr : resolveNodeRoleArn env config with
  | err e => rw [syncAuthConfigMap_resolution_err env config e hr] at h; cases h
  | crash m => rw [syncAuthConfigMap_resolution_crash env config m hr] at h; cases h
  | ok arn =>
    refine ⟨arn, ?_⟩
    by_cases hii : config.initialImport
    · rw [syncAuthConfigMap_ok_initial env config arn hii hr] at h
      cases h
      exact ⟨[], rfl, rfl⟩
    · cases hsso : ssoMapRoles env config.autoDiscoverSSORoles with
      | error e =>
        rw [syncAuthConfigMap_sso_error env config arn e
          (by simpa using hii) hr hsso] at h
        cases h
      | ok sso =>
        rw [syncAuthConfigMap_ok_normal env config arn sso
          (by simpa using hii) hr hsso] at h
        cases h
        exact ⟨sso ++ iamRolesToBindings config.iamRoles, rfl, rfl⟩

theorem removeArnPath_no_slash_doubles_witness :
    removeArnPath "x" = "x" ++ "/" ++ "x" ∧
    removeArnPath "x" ≠ "x" ∧
    arnToUsername "x" = "x" :=
  removeArnPath_no_slash_doubles "x" (by decide)

theorem ssoMapRoles_head_error (env : PulumiEnv)
    (c : SSORolePermissionSetInput) (rest : List SSORolePermissionSetInput)
    (e : String) (h : discoverSSORole env c.name = .error e) :
    ssoMapRoles env (c :: rest) = .error e := by
  simp only [ssoMapRoles, h]

/-- C4: an SSO permission-set lookup that matches `n ≠ 1` role ARNs under
the fixed SSO path prefix is a hard failure whose message reports the
count `n`; a unique match returns that ARN; and in normal mode a failing
lookup for the first configured permission set aborts `SyncAuthConfigMap`
with that error, so no configmap is registered. -/
theorem discoverSSORole_requires_exactly_one (env : PulumiEnv)
    (permissionSetName : String) (arns : List String)
    (hget : env.getRoles (ssoRoleRegex permissionSetName)
      "/aws-reserved/sso.amazonaws.com/" = .ok arns) :
    (arns.length ≠ 1 →
      discoverSSORole env permissionSetName =
        .error ("admin role auto discovery failed, discovered "
          ++ toString arns.length)) ∧
    (∀ a, arns = [a] → discoverSSORole env permissionSetName = .ok a) ∧
    (∀ (config : AuthConfigMapInput) (arn : String)
       (gs : List String) (un : String)
       (rest : List SSORolePermissionSetInput),
       arns.length ≠ 1 →
       config.initialImport = false →
       resolveNodeRoleArn env config = .ok arn →
       config.autoDiscoverSSORoles
         = { name := permissionSetName
           , permissionGroups := gs, username := un } :: rest →
       SyncAuthConfigMap env config =
         .err ("admin role auto discovery failed, discovered "
           ++ toString arns.length)) := by
  have hcount : arns.length ≠ 1 →
      discoverSSORole env permissionSetName =
        .error ("admin role auto discovery failed, discovered "
          ++ toString arns.length) := by
    intro hn
    unfold discoverSSORole
    rw [hget]
    simp [hn]
  refine ⟨hcount, ?_, ?_⟩
  · intro a ha
    unfold discoverSSORole
    rw [hget, ha]
    simp
  · intro config arn gs un rest hn hii hres hlist
    have hsso : ssoMapRoles env config.autoDiscoverSSORoles =
        .error ("admin role auto discovery failed, discovered "
          ++ toString arns.length) := by
      rw [hlist]
      exact ssoMapRoles_head_error env _ rest _ (hcount hn)
    exact syncAuthConfigMap_sso_error env config arn _ hii hres hsso

theorem resolveNodeRoleArn_autodiscover_ignores_explicit (env : PulumiEnv)
    (config : AuthConfigMapInput) (r : String)
    (h : config.nodeGroupIamRoleAutoDiscover = true) :
    resolveNodeRoleArn env { config with nodeGroupIamRole := r }
      = resolveNodeRoleArn env config := by
  unfold resolveNodeRoleArn
  simp [h]

/-- C10: with auto-discovery enabled the explicitly configured
`NodeGroupIamRole` is never consulted — the synchronization result is
invariant under changing it, and an empty `EKSClusterName` is an error
even when an explicit role is supplied; the explicit role is used
(as the resolved worker role) only when auto-discovery is disabled. -/
theorem syncAuthConfigMap_autodiscover_ignores_explicit_role
    (env : PulumiEnv) (config : AuthConfigMapInput) :
    (config.nodeGroupIamRoleAutoDiscover = true →
      ∀ r, SyncAuthConfigMap env { config with nodeGroupIamRole := r }
        = SyncAuthConfigMap env config) ∧
    (config.nodeGroupIamRoleAutoDiscover = true →
      config.eksClusterName = "" →
      SyncAuthConfigMap env config =
        .err "Node Group IAM Role auto discover enabled, but EKS cluster name not supplied") ∧
    (config.nodeGroupIamRoleAutoDiscover = false →
      config.nodeGroupIamRole ≠ "" →
      resolveNodeRoleArn env config = .ok config.nodeGroupIamRole) := by
  refine ⟨?_, ?_, ?_⟩
  · intro h r
    unfold SyncAuthConfigMap
    rw [resolveNodeRoleArn_autodiscover_ignores_explicit env config r h]
    rfl
  · intro h hname
    refine syncAuthConfigMap_resolution_err env config _ ?_
    unfold resolveNodeRoleArn
    simp [h, hname]
  · intro h hne
    unfold resolveNodeRoleArn
    simp [h, hne]

/-- C5 counterexample environment: the node-group listing succeeds with
an empty name list (a cluster with zero node groups). -/
def envZeroNodeGroups : PulumiEnv :=
  { getNodeGroups := fun _ => .ok []
  , lookupNodeGroup := fun _ _ => .ok "arn:aws:iam::123:role/ng-role"
  , getRoles := fun _ _ => .ok [] }

/-- C5 counterexample: when the cluster has zero node groups,
`discoverNodeIAMRole` neither returns a role ARN nor an error — the
unconditional `Names[0]` index panics. -/
theorem discoverNodeIAMRole_zero_node_groups_counterexample :
    ¬((∃ a, discoverNodeIAMRole envZeroNodeGroups "test-cluster"
          = GoResult.ok a) ∨
      (∃ e, discoverNodeIAMRole envZeroNodeGroups "test-cluster"
          = GoResult.err e)) := by
  have h : discoverNodeIAMRole envZeroNodeGroups "test-cluster"
      = .crash "runtime error: index out of range [0] with length 0" := rfl
  rintro (⟨a, ha⟩ | ⟨e, he⟩)
  · rw [h] at ha; cases ha
  · rw [h] at he; cases he

/-- C5 (amended): `discoverNodeIAMRole` propagates a listing error,
panics (crashes) when the provider returns zero node-group names, and
otherwise returns the role ARN of the first node group in provider
order, or the lookup error for it. -/
theorem discoverNodeIAMRole_first_or_error_or_crash (env : PulumiEnv)
    (clusterName : String) :
    (∀ e, env.getNodeGroups clusterName = .error e →
       discoverNodeIAMRole env clusterName = .err e) ∧
    (env.getNodeGroups clusterName = .ok [] →
       discoverNodeIAMRole env clusterName =
         .crash "runtime error: index out of range [0] with length 0") ∧
    (∀ n rest, env.getNodeGroups clusterName = .ok (n :: rest) →
       ((∃ r, env.lookupNodeGroup clusterName n = .ok r ∧
              discoverNodeIAMRole env clusterName = .ok r) ∨
        (∃ e, env.lookupNodeGroup clusterName n = .error e ∧
              discoverNodeIAMRole env clusterName = .err e))) := by
  refine ⟨?_, ?_, ?_⟩
  · intro e he
    unfold discoverNodeIAMRole
    rw [he]
  · intro h
    unfold discoverNodeIAMRole
    rw [h]
  · intro n rest h
    have hd : discoverNodeIAMRole env clusterName =
        match env.lookupNodeGroup clusterName n with
        | .error e => .err e
        | .ok nodeRoleArn => .ok nodeRoleArn := by
      unfold discoverNodeIAMRole
      rw [h]
    cases hl : env.lookupNodeGroup clusterName n with
    | error e =>
      right
      exact ⟨e, rfl, by rw [hd, hl]⟩
    | ok r =>
      left
      exact ⟨r, rfl, by rw [hd, hl]⟩

/-- C7 counterexample filesystem: no files exist. -/
def fsEmpty : FS := fun _ => false

/-- C7 counterexample: in `applyKubernetesManifest`, removal of the
scratch file is part of the shell command of the registered command
resource; when that resource fails to register or execute, the function
returns with the scratch file still existing. -/
theorem applyKubernetesManifest_scratch_persists_counterexample :
    ((applyKubernetesManifest none
        (.registerFailed "registering the command resource failed")
        fsEmpty "aws-auth-configmap").1 (tempFileName "aws-auth-configmap")
      = true) ∧
    ((applyKubernetesManifest none
        (.registerFailed "registering the command resource failed")
        fsEmpty "aws-auth-configmap").2
      = .error "registering the command resource failed") := by
  constructor <;> rfl

/-- C7 (amended): after `SyncKubernetesManifest` returns following a
successful scratch-file write, the scratch file no longer exists,
whether the apply succeeded or failed (deferred deletion on every exit
path); in `applyKubernetesManifest` the `;`-joined shell command removes
the scratch file whenever the command actually executes, regardless of
kubectl's outcome, but when the command resource fails to register or
execute, the scratch file persists. -/
theorem manifest_scratch_cleanup_amended (fs : FS)
    (pulumiResourceName : String) (applyResult : Except String Unit)
    (kubectlErr : Option String) (e : String) :
    ((SyncKubernetesManifest none applyResult fs pulumiResourceName).1
        (tempFileName pulumiResourceName) = false) ∧
    ((applyKubernetesManifest none (.ran kubectlErr) fs pulumiResourceName).1
        (tempFileName pulumiResourceName) = false) ∧
    ((applyKubernetesManifest none (.registerFailed e) fs
        pulumiResourceName).1 (tempFileName pulumiResourceName) = true) := by
  refine ⟨?_, ?_, ?_⟩
  · simp [SyncKubernetesManifest, fsRemove]
  · cases kubectlErr <;> simp [applyKubernetesManifest, fsRemove]
  · simp [applyKubernetesManifest, fsWrite]

/-- C8: materialization overwrites exactly three fields of the loaded
application template — sync policy, target revision and Helm values —
with the override values unconditionally (in particular an empty
override string overwrites a non-empty template value, since the
equations below put no condition on the override), and every other field
passes through unchanged. -/
theorem materializePlatformApplication_overrides_exactly_three
    (application : ArgocdApplication)
    (platformApplicationConfig : PlatformApplicationConfig) :
    (materializePlatformApplication application
        platformApplicationConfig).spec.syncPolicy
      = platformApplicationConfig.syncPolicy ∧
    (materializePlatformApplication application
        platformApplicationConfig).spec.source.targetRevision
      = platformApplicationConfig.targetRevision ∧
    (materializePlatformApplication application
        platformApplicationConfig).spec.source.helm.values
      = platformApplicationConfig.values ∧
    (materializePlatformApplication application
        platformApplicationConfig).apiVersion = application.apiVersion ∧
    (materializePlatformApplication application
        platformApplicationConfig).kind = application.kind ∧
    (materializePlatformApplication application
        platformApplicationConfig).metadata = application.metadata ∧
    (materializePlatformApplication application
        platformApplicationConfig).spec.destination
      = application.spec.destination ∧
    (materializePlatformApplication application
        platformApplicationConfig).spec.project = application.spec.project ∧
    (materializePlatformApplication application
        platformApplicationConfig).spec.ignoreDifferences
      = application.spec.ignoreDifferences ∧
    (materializePlatformApplication application
        platformApplicationConfig).spec.source.repoUrl
      = application.spec.source.repoUrl ∧
    (materializePlatformApplication application
        platformApplicationConfig).spec.source.path
      = application.spec.source.path ∧
    (materializePlatformApplication application
        platformApplicationConfig).spec.source.chart
      = application.spec.source.chart ∧
    (materializePlatformApplication application
        platformApplicationConfig).spec.source.kustomize
      = application.spec.source.kustomize ∧
    (materializePlatformApplication application
        platformApplicationConfig).spec.source.directory
      = application.spec.source.directory ∧
    (materializePlatformApplication application
        platformApplicationConfig).spec.source.plugin
      = application.spec.source.plugin ∧
    (materializePlatformApplication application
        platformApplicationConfig).spec.source.helm.valueFiles
      = application.spec.source.helm.valueFiles ∧
    (materializePlatformApplication application
        platformApplicationConfig).spec.source.helm.parameters
      = application.spec.source.helm.parameters ∧
    (materializePlatformApplication application
        platformApplicationConfig).spec.source.helm.releaseName
      = application.spec.source.helm.releaseName ∧
    (materializePlatformApplication application
        platformApplicationConfig).spec.source.helm.fileParameters
      = application.spec.source.helm.fileParameters ∧
    (materializePlatformApplication application
        platformApplicationConfig).spec.source.helm.version
      = application.spec.source.helm.version ∧
    (materializePlatformApplication application
        platformApplicationConfig).spec.source.helm.passCredentials
      = application.spec.source.helm.passCredentials ∧
    (materializePlatformApplication application
        platformApplicationConfig).spec.source.helm.ignoreMissingValueFiles
      = application.spec.source.helm.ignoreMissingValueFiles ∧
    (materializePlatformApplication application
        platformApplicationConfig).spec.source.helm.skipCrds
      = application.spec.source.helm.skipCrds :=
  ⟨rfl, rfl, rfl, rfl, rfl, rfl, rfl, rfl, rfl, rfl, rfl, rfl,
   rfl, rfl, rfl, rfl, rfl, rfl, rfl, rfl, rfl, rfl, rfl⟩

/-! ## Concrete environments and inputs for the witnesses -/

/-- Concrete environment: one node group whose worker role is
`arn:aws:iam::123:role/ng-role`, and exactly one SSO role ARN for any
permission-set search. -/
def envDiscovery : PulumiEnv :=
  { getNodeGroups := fun _ => .ok ["ng-1"]
  , lookupNodeGroup := fun _ _ => .ok "arn:aws:iam::123:role/ng-role"
  , getRoles := fun _ _ =>
      .ok ["arn:aws:iam::123:role/aws-reserved/sso.amazonaws.com/AWSReservedSSO_admin_abc"] }

/-- Concrete environment whose SSO role search matches two ARNs. -/
def envTwoSSORoles : PulumiEnv :=
  { getNodeGroups := fun _ => .ok ["ng-1"]
  , lookupNodeGroup := fun _ _ => .ok "arn:aws:iam::123:role/ng-role"
  , getRoles := fun _ _ => .ok ["arn:a", "arn:b"] }

/-- Concrete initial-import configuration with SSO, IAM-role and IAM-user
entries configured (all to be suppressed by initial import). -/
def cfgInitialImport : AuthConfigMapInput :=
  { initialImport := true
  , nodeGroupIamRole := ""
  , nodeGroupIamRoleAutoDiscover := true
  , eksClusterName := "test-cluster"
  , autoDiscoverSSORoles :=
      [{ name := "admin", permissionGroups := ["system:masters"], username := "" }]
  , iamRoles :=
      [{ arn := "arn:aws:iam::123:role/path/r1", permissionGroups := ["g1"]
       , username := "" }]
  , iamUsers :=
      [{ arn := "arn:aws:iam::123:user/path/u1", permissionGroups := ["g2"]
       , username := "" }] }

/-- Concrete normal-mode configuration with an explicit worker role and
one IAM user. -/
def cfgWithUsers : AuthConfigMapInput :=
  { initialImport := false
  , nodeGroupIamRole := "arn:aws:iam::123:role/explicit-ng"
  , nodeGroupIamRoleAutoDiscover := false
  , eksClusterName := ""
  , autoDiscoverSSORoles := []
  , iamRoles := []
  , iamUsers :=
      [{ arn := "arn:aws:iam::123:user/path/u1", permissionGroups := ["g2"]
       , username := "" }] }

/-- Data payload produced for `cfgWithUsers` under `envDiscovery`. -/
def dWithUsers : AuthConfigMapData :=
  { mapRoles := some [workerNodeBinding "arn:aws:iam::123:role/explicit-ng"]
  , mapUsers := some [{ groups := ["g2"]
                      , userArn := "arn:aws:iam::123:user/u1"
                      , username := "u1" }] }

/-- Concrete normal-mode configuration whose first (and only) SSO
permission set is `admin`. -/
def cfgTwoSSO : AuthConfigMapInput :=
  { initialImport := false
  , nodeGroupIamRole := "arn:aws:iam::123:role/explicit-ng"
  , nodeGroupIamRoleAutoDiscover := false
  , eksClusterName := ""
  , autoDiscoverSSORoles :=
      [{ name := "admin", permissionGroups := ["system:masters"], username := "" }]
  , iamRoles := []
  , iamUsers := [] }

/-- Concrete configuration with auto-discovery enabled, an explicit role
supplied, and no cluster name. -/
def cfgAutoNoCluster : AuthConfigMapInput :=
  { initialImport := false
  , nodeGroupIamRole := "arn:aws:iam::123:role/explicit-ng"
  , nodeGroupIamRoleAutoDiscover := true
  , eksClusterName := ""
  , autoDiscoverSSORoles := []
  , iamRoles := []
  , iamUsers := [] }

theorem syncAuthConfigMap_initialImport_only_worker_witness :
    SyncAuthConfigMap envDiscovery cfgInitialImport =
      .ok { mapRoles := some [workerNodeBinding "arn:aws:iam::123:role/ng-role"]
          , mapUsers := none } :=
  syncAuthConfigMap_initialImport_only_worker envDiscovery cfgInitialImport
    "arn:aws:iam::123:role/ng-role" rfl (by decide)

theorem syncAuthConfigMap_mapUsers_key_iff_witness :
    dWithUsers.mapRoles.isSome = true ∧
    (builtMapUsers cfgWithUsers ≠ [] →
      dWithUsers.mapUsers = some (builtMapUsers cfgWithUsers)) ∧
    (builtMapUsers cfgWithUsers = [] → dWithUsers.mapUsers = none) ∧
    dWithUsers.mapUsers ≠ some [] :=
  syncAuthConfigMap_mapUsers_key_iff envDiscovery cfgWithUsers dWithUsers
    (by decide)

theorem syncAuthConfigMap_worker_binding_first_witness :
    ∃ arn rest, resolveNodeRoleArn envDiscovery cfgWithUsers = GoResult.ok arn ∧
      dWithUsers.mapRoles = some
        ({ groups := ["system:bootstrappers", "system:nodes"]
         , roleArn := arn
         , username := "system:node:\x7b\x7bEC2PrivateDNSName\x7d\x7d" }
         :: rest) :=
  syncAuthConfigMap_worker_binding_first envDiscovery cfgWithUsers dWithUsers
    (by decide)

theorem discoverSSORole_requires_exactly_one_witness :
    discoverSSORole envTwoSSORoles "admin"
      = .error "admin role auto discovery failed, discovered 2" ∧
    SyncAuthConfigMap envTwoSSORoles cfgTwoSSO
      = .err "admin role auto discovery failed, discovered 2" :=
  ⟨(discoverSSORole_requires_exactly_one envTwoSSORoles "admin"
      ["arn:a", "arn:b"] rfl).1 (by decide),
   (discoverSSORole_requires_exactly_one envTwoSSORoles "admin"
      ["arn:a", "arn:b"] rfl).2.2 cfgTwoSSO "arn:aws:iam::123:role/explicit-ng"
     ["system:masters"] "" [] (by decide) rfl (by decide) rfl⟩

theorem discoverNodeIAMRole_first_or_error_or_crash_witness :
    discoverNodeIAMRole envZeroNodeGroups "test-cluster"
      = .crash "runtime error: index out of range [0] with length 0" ∧
    ((∃ r, envDiscovery.lookupNodeGroup "test-cluster" "ng-1" = .ok r ∧
           discoverNodeIAMRole envDiscovery "test-cluster" = .ok r) ∨
     (∃ e, envDiscovery.lookupNodeGroup "test-cluster" "ng-1" = .error e ∧
           discoverNodeIAMRole envDiscovery "test-cluster" = .err e)) :=
  ⟨(discoverNodeIAMRole_first_or_error_or_crash envZeroNodeGroups
      "test-cluster").2.1 rfl,
   (discoverNodeIAMRole_first_or_error_or_crash envDiscovery
      "test-cluster").2.2 "ng-1" [] rfl⟩

theorem syncAuthConfigMap_autodiscover_ignores_explicit_role_witness :
    SyncAuthConfigMap envDiscovery
        { cfgAutoNoCluster with nodeGroupIamRole := "other" }
      = SyncAuthConfigMap envDiscovery cfgAutoNoCluster ∧
    SyncAuthConfigMap envDiscovery cfgAutoNoCluster
      = .err "Node Group IAM Role auto discover enabled, but EKS cluster name not supplied" ∧
    resolveNodeRoleArn envDiscovery cfgWithUsers
      = .ok cfgWithUsers.nodeGroupIamRole :=
  ⟨(syncAuthConfigMap_autodiscover_ignores_explicit_role envDiscovery
      cfgAutoNoCluster).1 rfl "other",
   (syncAuthConfigMap_autodiscover_ignores_explicit_role envDiscovery
      cfgAutoNoCluster).2.1 rfl rfl,
   (syncAuthConfigMap_autodiscover_ignores_explicit_role envDiscovery
      cfgWithUsers).2.2 rfl (by decide)⟩
